import Mathlib

/-!
Verification of the obmc-console terminal client (`console-client.c`).

The development shallowly embeds the client: bytes are `Nat` (only equality
with fixed byte values matters to the code), the per-session scanner state
`esc_str_pos` / `newline` of `struct console_client` becomes `ClientState`,
and the escape-scan loop of `process_tty` (lines 63-97 of the source)
becomes the structurally recursive `scan_go`.  I/O is made explicit: a
`read(2)` outcome is a `ReadResult`, and each `write_buf_to_fd` call is
logged as the byte list it was asked to write, with its return value
supplied by an oracle (the helper is external to this file's source; per
its use in the source a negative return signals failure).  `main`'s poll
loop is driven by a list of `PollEvent`s, one per `poll(2)` wake-up.
-/

namespace ConsoleClient

/-- The enum process_rc of the source. -/
inductive process_rc where
  | PROCESS_OK
  | PROCESS_ERR
  | PROCESS_EXIT
deriving DecidableEq, Repr

/-- The escape-scanner fields of `struct console_client`: `esc_str_pos`
(progress into the escape pattern) and `newline` (last byte was a carriage
return).  `memset(client, 0, ...)` in `main` makes `⟨0, false⟩` the initial
state. -/
structure ClientState where
  esc_str_pos : Nat
  newline : Bool
deriving DecidableEq, Repr

/-- The static escape pattern esc_str of the source: the bytes of tilde and dot (126, 46). -/
def esc_str : List Nat := [126, 46]

/-- Result of the escape-scan loop (source lines 63-97): whether the loop
returned early with `PROCESS_EXIT` (`exited`), the scanner state at the end,
the `write_buf_to_fd` calls issued so far (each entry one call's buffer),
and `oob`, which records whether `esc_str[client->esc_str_pos]` was ever
read with an out-of-range index. -/
structure ScanResult where
  exited : Bool
  st : ClientState
  writes : List (List Nat)
  oob : Bool
deriving DecidableEq, Repr

/-- The `for (i = 0; i < len; i++)` escape-scan loop of `process_tty`
(source lines 63-97).  `buf` is the whole chunk (needed for the
flush-before-escape write), the first list argument is the unprocessed
suffix `buf[i..]`, `i` the current index, `ws` the writes issued so far and
`ob` the out-of-bounds accumulator.  Byte 13 is `'\r'`.  The lookup
`esc_str[client->esc_str_pos]` is totalised with `List.getD` and the `oob`
flag records whether the index was out of range. -/
def scan_go (buf : List Nat) : List Nat → Nat → ClientState → List (List Nat) → Bool → ScanResult
  | [], _, st, ws, ob => ⟨false, st, ws, ob⟩
  | b :: rest, i, st, ws, ob =>
    if b = 13 then
      scan_go buf rest (i + 1) ⟨st.esc_str_pos, true⟩ ws ob
    else if st.newline = false then
      scan_go buf rest (i + 1) st ws ob
    else
      -- e = esc_str[client->esc_str_pos]
      let ob := ob || decide (esc_str.length ≤ st.esc_str_pos)
      if b = esc_str.getD st.esc_str_pos 0 then
        -- client->esc_str_pos++
        if st.esc_str_pos + 1 = esc_str.length then
          -- flush out any data before the escape, then return PROCESS_EXIT
          ⟨true, ⟨st.esc_str_pos + 1, st.newline⟩,
            ws ++ (if st.esc_str_pos + 1 < i then [buf.take (i - (st.esc_str_pos + 1))] else []),
            ob⟩
        else
          scan_go buf rest (i + 1) ⟨st.esc_str_pos + 1, st.newline⟩ ws ob
      else
        -- mismatch: flush the skipped pattern prefix, reset the state
        scan_go buf rest (i + 1) ⟨0, false⟩
          (ws ++ (if st.esc_str_pos ≠ 0 then [esc_str.take st.esc_str_pos] else []))
          ob

/-- One whole run of the escape-scan loop over a chunk. -/
def scan_chunk (st : ClientState) (buf : List Nat) : ScanResult :=
  scan_go buf buf 0 st [] false

/-- Outcome of a `read(2)` call: negative return, zero return (EOF), or a
chunk of bytes (necessarily non-empty in the source). -/
inductive ReadResult where
  | err
  | eof
  | data (buf : List Nat)
deriving DecidableEq, Repr

/-- Result of `process_tty`: return code, scanner state afterwards, and the
`write_buf_to_fd` calls issued to `console_sd`, in order. -/
structure TtyResult where
  rc : process_rc
  st : ClientState
  writes : List (List Nat)
deriving DecidableEq, Repr

/-- Embedding of `process_tty` (source lines 49-105).  `r` is the outcome of the
`read` on `fd_in`; `wres k` is the return value of the `k`-th
`write_buf_to_fd` call of this invocation (the source ignores the return
value of the two mid-loop flush writes and checks only the final one,
so only `wres` at the final write's index can influence `rc`). -/
def process_tty (st : ClientState) (r : ReadResult) (wres : Nat → Int) : TtyResult :=
  match r with
  | .err => ⟨.PROCESS_ERR, st, []⟩
  | .eof => ⟨.PROCESS_EXIT, st, []⟩
  | .data buf =>
    let s := scan_chunk st buf
    if s.exited then
      ⟨.PROCESS_EXIT, s.st, s.writes⟩
    else
      -- write_buf_to_fd(client->console_sd, buf, len - client->esc_str_pos)
      let rc := wres s.writes.length
      ⟨if rc < 0 then .PROCESS_ERR else .PROCESS_OK, s.st,
        s.writes ++ [buf.take (buf.length - s.st.esc_str_pos)]⟩

/-- Feeding a sequence of chunks through successive `process_tty` calls
(as the relay loop does for terminal input), with all writes succeeding;
stops at the first call that does not return `PROCESS_OK` and accumulates
the `console_sd` writes of all calls made. -/
def feed (st : ClientState) : List (List Nat) → TtyResult
  | [] => ⟨.PROCESS_OK, st, []⟩
  | c :: cs =>
    let t := process_tty st (.data c) (fun _ => 0)
    if t.rc = .PROCESS_OK then
      let r := feed t.st cs
      ⟨r.rc, r.st, t.writes ++ r.writes⟩
    else
      t

/-- Result of `process_console`: return code, lines printed to stderr, and
the `write_buf_to_fd` calls issued to `fd_out`. -/
structure ConsoleResult where
  rc : process_rc
  msgs : List String
  out_writes : List (List Nat)
deriving DecidableEq, Repr

/-- Embedding of `process_console` (source lines 108-125).  `r` is the outcome of the
`read` on `console_sd`; `wres` is the return value of the single
`write_buf_to_fd` call to `fd_out` (the source maps any non-zero return to
`PROCESS_ERR`).  The read-error message of the source contains a quote
character, elided here. -/
def process_console (r : ReadResult) (wres : Int) : ConsoleResult :=
  match r with
  | .err => ⟨.PROCESS_ERR, ["Cant read from server"], []⟩
  | .eof => ⟨.PROCESS_EXIT, ["Connection closed"], []⟩
  | .data buf => ⟨if wres ≠ 0 then .PROCESS_ERR else .PROCESS_OK, [], [buf]⟩

/-- The two handlers, in the order the loop body runs them. -/
inductive Action where
  | tty
  | console
deriving DecidableEq, Repr

/-- Observable outcome of one iteration of the `for (;;)` loop body after a
successful `poll` (source lines 224-228): which handlers ran (in order),
the value of `prc` afterwards, the scanner state, and the accumulated
writes and messages. -/
structure IterResult where
  actions : List Action
  prc : process_rc
  st : ClientState
  sd_writes : List (List Nat)
  msgs : List String
  out_writes : List (List Nat)
deriving Repr

/-- One iteration of the relay-loop body after `poll` succeeded (source
lines 224-228).  `r0` / `r1` are `pollfds[0].revents` / `pollfds[1].revents`
as booleans; `prc` is `PROCESS_OK` on entry, as the loop breaks whenever an
iteration ends with any other value.  `process_console` runs only when
`prc == PROCESS_OK` still holds after the `process_tty` branch. -/
def loop_iter (st : ClientState) (r0 r1 : Bool) (tr : ReadResult) (tw : Nat → Int)
    (cr : ReadResult) (cw : Int) : IterResult :=
  if r0 then
    let t := process_tty st tr tw
    if t.rc = .PROCESS_OK then
      if r1 then
        let c := process_console cr cw
        ⟨[.tty, .console], c.rc, t.st, t.writes, c.msgs, c.out_writes⟩
      else
        ⟨[.tty], t.rc, t.st, t.writes, [], []⟩
    else
      ⟨[.tty], t.rc, t.st, t.writes, [], []⟩
  else if r1 then
    let c := process_console cr cw
    ⟨[.console], c.rc, st, [], c.msgs, c.out_writes⟩
  else
    ⟨[], .PROCESS_OK, st, [], [], []⟩

/-- One wake-up of the blocking `poll`: either `poll` returned negative, or
readiness flags for the two fds together with the outcomes of the reads and
writes the handlers would perform this iteration. -/
inductive PollEvent where
  | pollFail
  | ready (r0 r1 : Bool) (tr : ReadResult) (tw : Nat → Int) (cr : ReadResult) (cw : Int)

/-- State of `main` when the `for (;;)` loop breaks: the value of the local
`rc` (negative on poll failure or `PROCESS_ERR`, else 0), the final `prc`,
whether the break was the poll-failure break, and the accumulated stderr
messages and writes of the whole run. -/
structure LoopExit where
  rc : Int
  prc : process_rc
  poll_failed : Bool
  msgs : List String
  sd_writes : List (List Nat)
  out_writes : List (List Nat)
deriving DecidableEq, Repr

/-- The `for (;;)` relay loop of `main` (source lines 212-233), driven by
one `PollEvent` per `poll` wake-up.  Returns `none` when the event list is
exhausted with the loop still running (the real loop would block in
`poll`). -/
def main_loop (st : ClientState) : List PollEvent → Option LoopExit
  | [] => none
  | .pollFail :: _ => some ⟨-1, .PROCESS_OK, true, ["Poll failure"], [], []⟩
  | .ready r0 r1 tr tw cr cw :: rest =>
    let it := loop_iter st r0 r1 tr tw cr cw
    if it.prc = .PROCESS_OK then
      match main_loop it.st rest with
      | none => none
      | some le =>
        some ⟨le.rc, le.prc, le.poll_failed, it.msgs ++ le.msgs,
          it.sd_writes ++ le.sd_writes, it.out_writes ++ le.out_writes⟩
    else
      some ⟨if it.prc = .PROCESS_ERR then -1 else 0, it.prc, false,
        it.msgs, it.sd_writes, it.out_writes⟩

/-- What `client_fini` (source lines 186-191) does: restores the saved
terminal attributes exactly when `client->is_tty`, and closes `console_sd`
unconditionally. -/
structure FiniResult where
  restored_termios : Bool
  closed_sd : Bool
deriving DecidableEq, Repr

/-- Embedding of `client_fini` (source lines 186-191). -/
def client_fini (is_tty : Bool) : FiniResult :=
  ⟨is_tty, true⟩

/-- Observable outcome of `main` after `client_init` succeeded: the process
exit code (0 = `EXIT_SUCCESS`, 1 = `EXIT_FAILURE`), the `client_fini`
actions if it was invoked, and the loop exit state if the loop ran and
terminated. -/
structure MainOutcome where
  exit_code : Nat
  fini : Option FiniResult
  loop : Option LoopExit
deriving DecidableEq, Repr

/-- Embedding of `main` (source lines 193-238) from the point where `client_init` has
succeeded: `tty_init_rc` is the return value of `client_tty_init` (non-zero
jumps to `out_fini` with `rc` still non-zero), `is_tty` the flag it set,
and `events` drives the loop.  Returns `none` when the loop never
terminates within `events`. -/
def main_fn (tty_init_rc : Int) (is_tty : Bool) (events : List PollEvent) : Option MainOutcome :=
  if tty_init_rc ≠ 0 then
    some ⟨1, some (client_fini is_tty), none⟩
  else
    match main_loop ⟨0, false⟩ events with
    | none => none
    | some le =>
      some ⟨if le.rc ≠ 0 then 1 else 0, some (client_fini is_tty), some le⟩

/-! ### Step equations for the scan loop -/

lemma scan_go_nil (buf : List Nat) (i : Nat) (st : ClientState) (ws : List (List Nat))
    (ob : Bool) : scan_go buf [] i st ws ob = ⟨false, st, ws, ob⟩ :=
  rfl

lemma scan_go_cr (buf : List Nat) (b : Nat) (rest : List Nat) (i : Nat) (st : ClientState)
    (ws : List (List Nat)) (ob : Bool) (hb : b = 13) :
    scan_go buf (b :: rest) i st ws ob =
      scan_go buf rest (i + 1) ⟨st.esc_str_pos, true⟩ ws ob := by
  simp only [scan_go]
  rw [if_pos hb]

lemma scan_go_skip (buf : List Nat) (b : Nat) (rest : List Nat) (i : Nat) (st : ClientState)
    (ws : List (List Nat)) (ob : Bool) (hb : ¬ b = 13) (hn : st.newline = false) :
    scan_go buf (b :: rest) i st ws ob = scan_go buf rest (i + 1) st ws ob := by
  simp only [scan_go]
  rw [if_neg hb, if_pos hn]

lemma scan_go_match_done (buf : List Nat) (b : Nat) (rest : List Nat) (i : Nat)
    (st : ClientState) (ws : List (List Nat)) (ob : Bool) (hb : ¬ b = 13)
    (hn : ¬ st.newline = false) (hm : b = esc_str.getD st.esc_str_pos 0)
    (he : st.esc_str_pos + 1 = esc_str.length) :
    scan_go buf (b :: rest) i st ws ob =
      ⟨true, ⟨st.esc_str_pos + 1, st.newline⟩,
        ws ++ (if st.esc_str_pos + 1 < i then [buf.take (i - (st.esc_str_pos + 1))] else []),
        ob || decide (esc_str.length ≤ st.esc_str_pos)⟩ := by
  simp only [scan_go]
  rw [if_neg hb, if_neg hn, if_pos hm, if_pos he]

lemma scan_go_match_cont (buf : List Nat) (b : Nat) (rest : List Nat) (i : Nat)
    (st : ClientState) (ws : List (List Nat)) (ob : Bool) (hb : ¬ b = 13)
    (hn : ¬ st.newline = false) (hm : b = esc_str.getD st.esc_str_pos 0)
    (he : ¬ st.esc_str_pos + 1 = esc_str.length) :
    scan_go buf (b :: rest) i st ws ob =
      scan_go buf rest (i + 1) ⟨st.esc_str_pos + 1, st.newline⟩ ws
        (ob || decide (esc_str.length ≤ st.esc_str_pos)) := by
  simp only [scan_go]
  rw [if_neg hb, if_neg hn, if_pos hm, if_neg he]

lemma scan_go_mismatch (buf : List Nat) (b : Nat) (rest : List Nat) (i : Nat)
    (st : ClientState) (ws : List (List Nat)) (ob : Bool) (hb : ¬ b = 13)
    (hn : ¬ st.newline = false) (hm : ¬ b = esc_str.getD st.esc_str_pos 0) :
    scan_go buf (b :: rest) i st ws ob =
      scan_go buf rest (i + 1) ⟨0, false⟩
        (ws ++ (if st.esc_str_pos ≠ 0 then [esc_str.take st.esc_str_pos] else []))
        (ob || decide (esc_str.length ≤ st.esc_str_pos)) := by
  simp only [scan_go]
  rw [if_neg hb, if_neg hn, if_neg hm]

/-! ### Invariant lemmas about the scan loop -/

/-- From the reset state, a suffix containing no carriage return is scanned
without touching the state or issuing any write. -/
lemma scan_go_no_cr (buf : List Nat) :
    ∀ rest i ws ob, (∀ b ∈ rest, b ≠ 13) →
      scan_go buf rest i ⟨0, false⟩ ws ob = ⟨false, ⟨0, false⟩, ws, ob⟩
  | [], _, _, _, _ => rfl
  | b :: rest, i, ws, ob, h => by
    have hb : ¬ b = 13 := h b (List.mem_cons_self b rest)
    rw [scan_go_skip buf b rest i ⟨0, false⟩ ws ob hb rfl]
    exact scan_go_no_cr buf rest (i + 1) ws ob (fun x hx => h x (List.mem_cons_of_mem b hx))

/-- The scan loop keeps `esc_str_pos` at most 1 between bytes, never reads
`esc_str` out of range, and sets `esc_str_pos = 2` exactly on the early
`PROCESS_EXIT` return. -/
lemma scan_go_inv (buf : List Nat) :
    ∀ rest i st ws ob, st.esc_str_pos ≤ 1 →
      (scan_go buf rest i st ws ob).oob = ob ∧
      ((scan_go buf rest i st ws ob).exited = false →
        (scan_go buf rest i st ws ob).st.esc_str_pos ≤ 1) ∧
      ((scan_go buf rest i st ws ob).exited = true →
        (scan_go buf rest i st ws ob).st.esc_str_pos = 2)
  | [], i, st, ws, ob, h => by
    rw [scan_go_nil]
    exact ⟨rfl, fun _ => h, fun hc => Bool.noConfusion hc⟩
  | b :: rest, i, st, ws, ob, h => by
    have hob : (ob || decide (esc_str.length ≤ st.esc_str_pos)) = ob := by
      have : ¬ esc_str.length ≤ st.esc_str_pos := by
        simp only [esc_str, List.length_cons, List.length_nil]
        omega
      simp [this]
    by_cases hb : b = 13
    · rw [scan_go_cr buf b rest i st ws ob hb]
      exact scan_go_inv buf rest (i + 1) ⟨st.esc_str_pos, true⟩ ws ob h
    · by_cases hn : st.newline = false
      · rw [scan_go_skip buf b rest i st ws ob hb hn]
        exact scan_go_inv buf rest (i + 1) st ws ob h
      · by_cases hm : b = esc_str.getD st.esc_str_pos 0
        · by_cases he : st.esc_str_pos + 1 = esc_str.length
          · rw [scan_go_match_done buf b rest i st ws ob hb hn hm he, hob]
            have h2 : st.esc_str_pos + 1 = 2 := by
              simpa [esc_str] using he
            exact ⟨rfl, fun hc => Bool.noConfusion hc, fun _ => h2⟩
          · rw [scan_go_match_cont buf b rest i st ws ob hb hn hm he, hob]
            have hle : st.esc_str_pos + 1 ≤ 1 := by
              have : st.esc_str_pos + 1 ≠ 2 := by simpa [esc_str] using he
              omega
            exact scan_go_inv buf rest (i + 1) ⟨st.esc_str_pos + 1, st.newline⟩ ws ob hle
        · rw [scan_go_mismatch buf b rest i st ws ob hb hn hm, hob]
          exact scan_go_inv buf rest (i + 1) ⟨0, false⟩
            (ws ++ (if st.esc_str_pos ≠ 0 then [esc_str.take st.esc_str_pos] else []))
            ob (Nat.zero_le 1)

/-- The scan loop preserves the invariant that a pending partial match
(`esc_str_pos ≠ 0`) implies `newline = true`. -/
lemma scan_go_nl (buf : List Nat) :
    ∀ rest i st ws ob, (st.esc_str_pos ≠ 0 → st.newline = true) →
      ((scan_go buf rest i st ws ob).st.esc_str_pos ≠ 0 →
        (scan_go buf rest i st ws ob).st.newline = true)
  | [], _, st, ws, ob, h => by
    rw [scan_go_nil]
    exact h
  | b :: rest, i, st, ws, ob, h => by
    by_cases hb : b = 13
    · rw [scan_go_cr buf b rest i st ws ob hb]
      exact scan_go_nl buf rest (i + 1) ⟨st.esc_str_pos, true⟩ ws ob (fun _ => rfl)
    · by_cases hn : st.newline = false
      · rw [scan_go_skip buf b rest i st ws ob hb hn]
        exact scan_go_nl buf rest (i + 1) st ws ob h
      · have hnt : st.newline = true := by
          revert hn
          cases st.newline <;> simp
        by_cases hm : b = esc_str.getD st.esc_str_pos 0
        · by_cases he : st.esc_str_pos + 1 = esc_str.length
          · rw [scan_go_match_done buf b rest i st ws ob hb hn hm he]
            exact fun _ => hnt
          · rw [scan_go_match_cont buf b rest i st ws ob hb hn hm he]
            exact scan_go_nl buf rest (i + 1) ⟨st.esc_str_pos + 1, st.newline⟩ ws
              (ob || decide (esc_str.length ≤ st.esc_str_pos)) (fun _ => hnt)
        · rw [scan_go_mismatch buf b rest i st ws ob hb hn hm]
          exact scan_go_nl buf rest (i + 1) ⟨0, false⟩
            (ws ++ (if st.esc_str_pos ≠ 0 then [esc_str.take st.esc_str_pos] else []))
            (ob || decide (esc_str.length ≤ st.esc_str_pos)) (fun hc => absurd rfl hc)

/-! ### Lemmas about `process_tty` and `feed` -/

lemma process_tty_data_exit (st : ClientState) (buf : List Nat) (w : Nat → Int)
    (h : (scan_chunk st buf).exited = true) :
    process_tty st (.data buf) w =
      ⟨.PROCESS_EXIT, (scan_chunk st buf).st, (scan_chunk st buf).writes⟩ := by
  simp only [process_tty]
  rw [if_pos h]

lemma process_tty_data_cont (st : ClientState) (buf : List Nat) (w : Nat → Int)
    (h : (scan_chunk st buf).exited = false) :
    process_tty st (.data buf) w =
      ⟨if w (scan_chunk st buf).writes.length < 0 then .PROCESS_ERR else .PROCESS_OK,
        (scan_chunk st buf).st,
        (scan_chunk st buf).writes ++
          [buf.take (buf.length - (scan_chunk st buf).st.esc_str_pos)]⟩ := by
  simp only [process_tty]
  rw [if_neg (by rw [h]; exact Bool.noConfusion)]

/-- With a carriage-return-free chunk from the reset state, `process_tty`
forwards the whole chunk in one write and leaves the state reset. -/
lemma process_tty_no_cr (buf : List Nat) (h : ∀ b ∈ buf, b ≠ 13) :
    process_tty ⟨0, false⟩ (.data buf) (fun _ => 0) = ⟨.PROCESS_OK, ⟨0, false⟩, [buf]⟩ := by
  have hs : scan_chunk ⟨0, false⟩ buf = ⟨false, ⟨0, false⟩, [], false⟩ :=
    scan_go_no_cr buf buf 0 [] false h
  rw [process_tty_data_cont ⟨0, false⟩ buf (fun _ => 0) (by rw [hs]), hs]
  simp

/-- Running `process_tty` with all writes returning 0: the non-exited case always
reports `PROCESS_OK`. -/
lemma process_tty_w0 (st : ClientState) (buf : List Nat)
    (h : (scan_chunk st buf).exited = false) :
    process_tty st (.data buf) (fun _ => 0) =
      ⟨.PROCESS_OK, (scan_chunk st buf).st,
        (scan_chunk st buf).writes ++
          [buf.take (buf.length - (scan_chunk st buf).st.esc_str_pos)]⟩ := by
  rw [process_tty_data_cont st buf (fun _ => 0) h]
  norm_num

lemma feed_cons_ok (st : ClientState) (c : List Nat) (cs : List (List Nat))
    (h : (scan_chunk st c).exited = false) :
    feed st (c :: cs) =
      ⟨(feed (scan_chunk st c).st cs).rc, (feed (scan_chunk st c).st cs).st,
        ((scan_chunk st c).writes ++
          [c.take (c.length - (scan_chunk st c).st.esc_str_pos)]) ++
          (feed (scan_chunk st c).st cs).writes⟩ := by
  simp only [feed]
  rw [process_tty_w0 st c h]
  simp

lemma feed_cons_exit (st : ClientState) (c : List Nat) (cs : List (List Nat))
    (h : (scan_chunk st c).exited = true) :
    feed st (c :: cs) = ⟨.PROCESS_EXIT, (scan_chunk st c).st, (scan_chunk st c).writes⟩ := by
  simp only [feed]
  rw [process_tty_data_exit st c (fun _ => 0) h]
  simp

/-- The function `feed` preserves the bound `esc_str_pos ≤ 1` as long as every call
returned `PROCESS_OK`. -/
lemma feed_pos : ∀ chunks st, st.esc_str_pos ≤ 1 →
    (feed st chunks).rc = .PROCESS_OK → (feed st chunks).st.esc_str_pos ≤ 1
  | [], st, h, _ => h
  | c :: cs, st, h, hrc => by
    have hinv := scan_go_inv c c 0 st [] false h
    cases hex : (scan_chunk st c).exited
    · rw [feed_cons_ok st c cs hex] at hrc ⊢
      exact feed_pos cs (scan_chunk st c).st (hinv.2.1 hex) hrc
    · rw [feed_cons_exit st c cs hex] at hrc
      cases hrc

/-- The function `feed` preserves the partial-match/newline invariant, whatever the
final return code. -/
lemma feed_nl : ∀ chunks st, (st.esc_str_pos ≠ 0 → st.newline = true) →
    ((feed st chunks).st.esc_str_pos ≠ 0 → (feed st chunks).st.newline = true)
  | [], st, h => h
  | c :: cs, st, h => by
    have hs := scan_go_nl c c 0 st [] false h
    cases hex : (scan_chunk st c).exited
    · rw [feed_cons_ok st c cs hex]
      exact feed_nl cs (scan_chunk st c).st hs
    · rw [feed_cons_exit st c cs hex]
      exact hs

/-! ### Claim theorems -/

/-- C1: for the chunk `'\r' '~' '.'` from the initial state, `process_tty`
does report detach (`PROCESS_EXIT`) and withholds `'~'` and `'.'`, but it
forwards nothing at all: the flush condition `i > esc_str_pos` is `2 > 2`,
so the `'\r'` that precedes the match is dropped instead of being
forwarded, contradicting the claim (and the flush comment in the source).
This theorem evaluates the code at the failing input. -/
theorem c1_detach_drops_preceding_cr :
    process_tty ⟨0, false⟩ (.data [13, 126, 46]) (fun _ => 0) =
      ⟨.PROCESS_EXIT, ⟨2, true⟩, []⟩ ∧
    (process_tty ⟨0, false⟩ (.data [13, 126, 46]) (fun _ => 0)).writes.flatten ≠ [13] := by
  exact ⟨rfl, by decide⟩

/-- C2: for the chunk `'\r' '~' 'x'` from the initial state, `process_tty`
reports no detach and afterwards `esc_str_pos = 0` and `newline = false`
(and a following `'\r' '~' '.'` chunk detaches), as the claim says; but the
bytes written to the service are the mid-loop flush `'~'` followed by the
whole buffer `'\r' '~' 'x'` — the withheld `'~'` is delivered twice and out
of order, not the claimed exact `'\r' '~' 'x'`.  This theorem evaluates the
code at the failing input. -/
theorem c2_false_start_duplicates_tilde :
    process_tty ⟨0, false⟩ (.data [13, 126, 120]) (fun _ => 0) =
      ⟨.PROCESS_OK, ⟨0, false⟩, [[126], [13, 126, 120]]⟩ ∧
    (process_tty ⟨0, false⟩ (.data [13, 126, 120]) (fun _ => 0)).writes.flatten =
      [126, 13, 126, 120] ∧
    ([126, 13, 126, 120] : List Nat) ≠ [13, 126, 120] ∧
    (process_tty ⟨0, false⟩ (.data [13, 126, 46]) (fun _ => 0)).rc = .PROCESS_EXIT := by
  exact ⟨rfl, by decide, by decide, rfl⟩

/-- C3: the bytes `'\r' '~' '.'` split as `"\r~"` then `"."`, or as three
single-byte chunks, carry the partial match across the call boundary
(`esc_str_pos = 1`, `newline = true` after the first part), detach on the
final chunk and never forward the tentative `'~'` — but they cumulatively
forward `'\r'`, whereas the same bytes fed as one chunk forward nothing
(the C1 off-by-one), so the claimed equality of cumulative output with the
single-chunk case fails on the code.  This theorem evaluates both
chunkings. -/
theorem c3_split_vs_single_chunk :
    (process_tty ⟨0, false⟩ (.data [13, 126]) (fun _ => 0)).st = ⟨1, true⟩ ∧
    (process_tty ⟨0, false⟩ (.data [13, 126]) (fun _ => 0)).rc = .PROCESS_OK ∧
    feed ⟨0, false⟩ [[13, 126], [46]] = ⟨.PROCESS_EXIT, ⟨2, true⟩, [[13]]⟩ ∧
    feed ⟨0, false⟩ [[13], [126], [46]] = ⟨.PROCESS_EXIT, ⟨2, true⟩, [[13], []]⟩ ∧
    (feed ⟨0, false⟩ [[13], [126], [46]]).writes.flatten = [13] ∧
    feed ⟨0, false⟩ [[13, 126, 46]] = ⟨.PROCESS_EXIT, ⟨2, true⟩, []⟩ ∧
    (126 : Nat) ∉ ([13] : List Nat) ∧
    ([13] : List Nat) ≠ (feed ⟨0, false⟩ [[13, 126, 46]]).writes.flatten := by
  exact ⟨rfl, rfl, rfl, rfl, by decide, rfl, by decide, by decide⟩

/-- C4: a stream with no carriage return, fed from the initial state as any
sequence of non-empty chunks, is forwarded to the service byte for byte —
every call returns `PROCESS_OK` (no detach, no error), the scanner state
stays at its initial value, and the concatenation of the forwarded bytes is
exactly the original stream. -/
theorem c4_no_cr_round_trip (chunks : List (List Nat))
    (h : ∀ c ∈ chunks, c ≠ [] ∧ (13 : Nat) ∉ c) :
    feed ⟨0, false⟩ chunks = ⟨.PROCESS_OK, ⟨0, false⟩, chunks⟩ ∧
    (feed ⟨0, false⟩ chunks).writes.flatten = chunks.flatten := by
  induction chunks with
  | nil => exact ⟨rfl, rfl⟩
  | cons c cs ih =>
    have hc : ∀ b ∈ c, b ≠ 13 := by
      intro b hb heq
      exact (h c (List.mem_cons_self c cs)).2 (heq ▸ hb)
    have ihs := ih (fun x hx => h x (List.mem_cons_of_mem c hx))
    have hs : scan_chunk ⟨0, false⟩ c = ⟨false, ⟨0, false⟩, [], false⟩ :=
      scan_go_no_cr c c 0 [] false hc
    have h1 : feed ⟨0, false⟩ (c :: cs) =
        ⟨(feed ⟨0, false⟩ cs).rc, (feed ⟨0, false⟩ cs).st, [c] ++ (feed ⟨0, false⟩ cs).writes⟩ := by
      have := feed_cons_ok ⟨0, false⟩ c cs (by rw [hs])
      rw [hs] at this
      simpa using this
    rw [h1, ihs.1]
    exact ⟨rfl, by simp⟩

/-- C4 witness at a concrete escape-free split stream. -/
theorem c4_no_cr_round_trip_witness :
    feed ⟨0, false⟩ [[104], [101, 120]] = ⟨.PROCESS_OK, ⟨0, false⟩, [[104], [101, 120]]⟩ ∧
    (feed ⟨0, false⟩ [[104], [101, 120]]).writes.flatten = [104, 101, 120] :=
  c4_no_cr_round_trip [[104], [101, 120]] (by decide)

/-- C5: in a relay-loop iteration where both endpoints are ready,
`process_tty` runs first (it heads the action list), and `process_console`
runs afterwards exactly when `process_tty` returned `PROCESS_OK` — in
particular a terminating `PROCESS_EXIT` or `PROCESS_ERR` from `process_tty`
means `process_console` is not invoked in that iteration. -/
theorem c5_tty_before_console (st : ClientState) (tr : ReadResult) (tw : Nat → Int)
    (cr : ReadResult) (cw : Int) :
    (loop_iter st true true tr tw cr cw).actions =
      (if (process_tty st tr tw).rc = .PROCESS_OK then [.tty, .console] else [.tty]) ∧
    (loop_iter st true true tr tw cr cw).actions.head? = some .tty ∧
    ((process_tty st tr tw).rc ≠ .PROCESS_OK →
      Action.console ∉ (loop_iter st true true tr tw cr cw).actions) := by
  by_cases h : (process_tty st tr tw).rc = .PROCESS_OK
  · refine ⟨?_, ?_, fun hc => absurd h hc⟩ <;> simp [loop_iter, h]
  · refine ⟨?_, ?_, fun _ => ?_⟩ <;> simp [loop_iter, h]

/-- C5 witness: with local EOF on the terminal side (which terminates with
`PROCESS_EXIT`), the service endpoint is not serviced in that iteration. -/
theorem c5_tty_before_console_witness :
    Action.console ∉ (loop_iter ⟨0, false⟩ true true .eof (fun _ => 0) .eof 0).actions :=
  (c5_tty_before_console ⟨0, false⟩ .eof (fun _ => 0) .eof 0).2.2 (by decide)

/-- C8: starting from any state with `esc_str_pos ≤ 1` (so in particular
from the initial state and from any state a previous scan call left
behind), a scan never reads `esc_str` out of range, keeps `esc_str_pos` in
`[0, 2]`, and reaches 2 exactly on the early detach return; across any
sequence of calls that all returned `PROCESS_OK` the carried position stays
at most 1. -/
theorem c8_esc_str_pos_bounded (st : ClientState) (buf : List Nat)
    (chunks : List (List Nat)) (h : st.esc_str_pos ≤ 1) :
    (scan_chunk st buf).oob = false ∧
    (scan_chunk st buf).st.esc_str_pos ≤ 2 ∧
    ((scan_chunk st buf).exited = true ↔ (scan_chunk st buf).st.esc_str_pos = 2) ∧
    ((feed st chunks).rc = .PROCESS_OK → (feed st chunks).st.esc_str_pos ≤ 1) := by
  have hinv := scan_go_inv buf buf 0 st [] false h
  refine ⟨hinv.1, ?_, ⟨hinv.2.2, fun h2 => ?_⟩, feed_pos chunks st h⟩
  · cases hex : (scan_chunk st buf).exited
    · exact Nat.le_succ_of_le (hinv.2.1 hex)
    · exact Nat.le_of_eq (hinv.2.2 hex)
  · cases hex : (scan_chunk st buf).exited
    · have h3 : (scan_chunk st buf).st.esc_str_pos ≤ 1 := hinv.2.1 hex
      omega
    · rfl

/-- C8 witness at the detaching chunk and a one-chunk call sequence. -/
theorem c8_esc_str_pos_bounded_witness :
    (scan_chunk ⟨0, false⟩ [13, 126, 46]).oob = false ∧
    (scan_chunk ⟨0, false⟩ [13, 126, 46]).st.esc_str_pos = 2 ∧
    (feed ⟨0, false⟩ [[104]]).st.esc_str_pos ≤ 1 :=
  ⟨(c8_esc_str_pos_bounded ⟨0, false⟩ [13, 126, 46] [[104]] (by decide)).1,
    (c8_esc_str_pos_bounded ⟨0, false⟩ [13, 126, 46] [[104]] (by decide)).2.2.1.mp rfl,
    (c8_esc_str_pos_bounded ⟨0, false⟩ [13, 126, 46] [[104]] (by decide)).2.2.2 (by decide)⟩

/-- C10: a pending partial match implies the after-carriage-return context:
if `esc_str_pos ≠ 0 → newline = true` holds for the state entering the scan
loop at any point (any chunk, any position, any accumulators — so in
particular between any two consecutively processed bytes), it holds for the
state the loop leaves behind, and likewise across any sequence of
`process_tty` calls. -/
theorem c10_partial_match_implies_newline (buf rest : List Nat) (i : Nat)
    (st : ClientState) (ws : List (List Nat)) (ob : Bool) (chunks : List (List Nat))
    (h : st.esc_str_pos ≠ 0 → st.newline = true) :
    ((scan_go buf rest i st ws ob).st.esc_str_pos ≠ 0 →
      (scan_go buf rest i st ws ob).st.newline = true) ∧
    ((feed st chunks).st.esc_str_pos ≠ 0 → (feed st chunks).st.newline = true) :=
  ⟨scan_go_nl buf rest i st ws ob h, feed_nl chunks st h⟩

/-- C10 witness: after scanning `'~'` in the after-carriage-return context
the pending position is 1 and `newline` is still true, both at the scan
level and across a `process_tty` call. -/
theorem c10_partial_match_implies_newline_witness :
    (scan_go [126] [126] 0 ⟨0, true⟩ [] false).st.newline = true ∧
    (feed ⟨0, true⟩ [[126]]).st.newline = true :=
  ⟨(c10_partial_match_implies_newline [126] [126] 0 ⟨0, true⟩ [] false [[126]]
      (by decide)).1 (by decide),
    (c10_partial_match_implies_newline [126] [126] 0 ⟨0, true⟩ [] false [[126]]
      (by decide)).2 (by decide)⟩

/-- The local `rc` of `main` at loop exit: negative exactly on a
`PROCESS_ERR` break or a `poll` failure, and zero on a `PROCESS_EXIT`
break. -/
lemma main_loop_rc : ∀ events st le, main_loop st events = some le →
    ((le.rc ≠ 0 ↔ (le.prc = .PROCESS_ERR ∨ le.poll_failed = true)) ∧
      (le.prc = .PROCESS_EXIT → le.rc = 0))
  | [], st, le, h => by
    cases h
  | .pollFail :: rest, st, le, h => by
    simp only [main_loop, Option.some.injEq] at h
    subst h
    exact ⟨by simp, fun he => by cases he⟩
  | .ready r0 r1 tr tw cr cw :: rest, st, le, h => by
    simp only [main_loop] at h
    by_cases hprc : (loop_iter st r0 r1 tr tw cr cw).prc = .PROCESS_OK
    · rw [if_pos hprc] at h
      cases hml : main_loop (loop_iter st r0 r1 tr tw cr cw).st rest with
      | none => rw [hml] at h; cases h
      | some le' =>
        rw [hml] at h
        simp only [Option.some.injEq] at h
        subst h
        exact main_loop_rc rest (loop_iter st r0 r1 tr tw cr cw).st le' hml
    · rw [if_neg hprc] at h
      simp only [Option.some.injEq] at h
      subst h
      by_cases herr : (loop_iter st r0 r1 tr tw cr cw).prc = .PROCESS_ERR
      · refine ⟨by simp [herr], fun he => ?_⟩
        have he2 : (loop_iter st r0 r1 tr tw cr cw).prc = .PROCESS_EXIT := he
        rw [herr] at he2
        cases he2
      · exact ⟨by simp [herr], fun _ => by simp [herr]⟩

/-- C6 counterexample: for the chunk `'h' '\r' '~' '.'`, the
flush-before-detach write of the confirmed-safe byte `'h'` is issued; even
with every write failing (all returns −1), `process_tty` still returns
`PROCESS_EXIT`, not the `PROCESS_ERR` the claim requires — the source
ignores the return value of that flush (and of the false-start flush). -/
theorem c6_cex_flush_failure_ignored :
    process_tty ⟨0, false⟩ (.data [104, 13, 126, 46]) (fun _ => -1) =
      ⟨.PROCESS_EXIT, ⟨2, true⟩, [[104]]⟩ ∧
    ((-1 : Int) < 0) ∧
    process_rc.PROCESS_EXIT ≠ process_rc.PROCESS_ERR :=
  ⟨rfl, by decide, by decide⟩

/-- C6 amended: failing reads on either endpoint, a failing write in
`process_console`, and a failing final (post-scan) bulk write in
`process_tty` each immediately yield `PROCESS_ERR`; but the return values
of the two mid-scan flush writes are ignored — `process_tty`'s return code
depends only on the read outcome and on the result of the final write. -/
theorem c6_error_propagation :
    (∀ (st : ClientState) (w : Nat → Int), process_tty st .err w = ⟨.PROCESS_ERR, st, []⟩) ∧
    (∀ w : Int, (process_console .err w).rc = .PROCESS_ERR) ∧
    (∀ (buf : List Nat) (w : Int), w ≠ 0 → (process_console (.data buf) w).rc = .PROCESS_ERR) ∧
    (∀ (st : ClientState) (buf : List Nat) (w : Nat → Int),
      (scan_chunk st buf).exited = false →
      w (scan_chunk st buf).writes.length < 0 →
      (process_tty st (.data buf) w).rc = .PROCESS_ERR) ∧
    (∀ (st : ClientState) (buf : List Nat) (w w' : Nat → Int),
      w (scan_chunk st buf).writes.length = w' (scan_chunk st buf).writes.length →
      (process_tty st (.data buf) w).rc = (process_tty st (.data buf) w').rc) := by
  refine ⟨fun st w => rfl, fun w => rfl, fun buf w hw => ?_, fun st buf w hex hw => ?_,
    fun st buf w w' hww => ?_⟩
  · simp [process_console, hw]
  · rw [process_tty_data_cont st buf w hex]
    simp [hw]
  · cases hex : (scan_chunk st buf).exited
    · rw [process_tty_data_cont st buf w hex, process_tty_data_cont st buf w' hex]
      simp only
      rw [hww]
    · rw [process_tty_data_exit st buf w hex, process_tty_data_exit st buf w' hex]

/-- C6 amended witness: a failing console write and a failing final tty
write each produce `PROCESS_ERR` at concrete inputs. -/
theorem c6_error_propagation_witness :
    (process_console (.data [97]) 1).rc = .PROCESS_ERR ∧
    (process_tty ⟨0, false⟩ (.data [104]) (fun _ => -1)).rc = .PROCESS_ERR :=
  ⟨c6_error_propagation.2.2.1 [97] 1 (by decide),
    c6_error_propagation.2.2.2.1 ⟨0, false⟩ [104] (fun _ => -1) (by decide) (by decide)⟩

/-- C7 counterexample: when `poll` itself fails, the loop terminates with
`prc` still `PROCESS_OK` — not `PROCESS_ERR` — yet the process exits with
the failure exit code, so "failure exactly when the loop terminates with
`PROCESS_ERR`" is false on the code. -/
theorem c7_cex_poll_failure :
    main_fn 0 true [.pollFail] =
      some ⟨1, some (client_fini true),
        some ⟨-1, .PROCESS_OK, true, ["Poll failure"], [], []⟩⟩ ∧
    process_rc.PROCESS_OK ≠ process_rc.PROCESS_ERR :=
  ⟨rfl, by decide⟩

/-- C7 amended: a zero-byte read on terminal input makes `process_tty`
return `PROCESS_EXIT`; a zero-byte read on the service socket makes
`process_console` print "Connection closed" and return `PROCESS_EXIT`; a
loop that terminates with `PROCESS_EXIT` (local EOF, remote close, detach)
yields the success exit code, and the failure exit code occurs exactly when
the loop terminates with `PROCESS_ERR` or the `poll` wait itself fails. -/
theorem c7_zero_read_and_exit_codes :
    (∀ (st : ClientState) (w : Nat → Int), process_tty st .eof w = ⟨.PROCESS_EXIT, st, []⟩) ∧
    (∀ w : Int, process_console .eof w = ⟨.PROCESS_EXIT, ["Connection closed"], []⟩) ∧
    (∀ (is_tty : Bool) (events : List PollEvent) (res : MainOutcome) (le : LoopExit),
      main_fn 0 is_tty events = some res → res.loop = some le →
      ((le.prc = .PROCESS_EXIT → res.exit_code = 0) ∧
        (res.exit_code = 1 ↔ (le.prc = .PROCESS_ERR ∨ le.poll_failed = true)))) := by
  refine ⟨fun st w => rfl, fun w => rfl, fun is_tty events res le h hl => ?_⟩
  unfold main_fn at h
  rw [if_neg (show ¬ ((0 : Int) ≠ 0) by decide)] at h
  cases hml : main_loop ⟨0, false⟩ events with
  | none => rw [hml] at h; cases h
  | some le' =>
    rw [hml] at h
    simp only [Option.some.injEq] at h
    subst h
    simp only [Option.some.injEq] at hl
    subst hl
    have hrc := main_loop_rc events ⟨0, false⟩ le' hml
    by_cases hz : le'.rc ≠ 0
    · have hx : (⟨if le'.rc ≠ 0 then 1 else 0, some (client_fini is_tty),
          some le'⟩ : MainOutcome).exit_code = 1 := by
        simp [hz]
      refine ⟨fun hexit => absurd (hrc.2 hexit) hz, ?_⟩
      rw [hx]
      exact ⟨fun _ => hrc.1.mp hz, fun _ => rfl⟩
    · have hx : (⟨if le'.rc ≠ 0 then 1 else 0, some (client_fini is_tty),
          some le'⟩ : MainOutcome).exit_code = 0 := by
        simp [hz]
      refine ⟨fun _ => hx, ?_⟩
      rw [hx]
      constructor
      · intro h0
        exact absurd h0 (by decide)
      · intro hd
        exact absurd (hrc.1.mpr hd) hz

/-- C7 amended witness: local EOF terminates the loop with `PROCESS_EXIT`
and the process exit code is the success code. -/
theorem c7_zero_read_and_exit_codes_witness :
    (⟨0, some (client_fini true),
      some ⟨0, .PROCESS_EXIT, false, [], [], []⟩⟩ : MainOutcome).exit_code = 0 :=
  (c7_zero_read_and_exit_codes.2.2 true [.ready true false .eof (fun _ => 0) .eof 0]
    ⟨0, some (client_fini true), some ⟨0, .PROCESS_EXIT, false, [], [], []⟩⟩
    ⟨0, .PROCESS_EXIT, false, [], [], []⟩ rfl rfl).1 rfl

/-- C9: whenever `main` terminates after the service connection was
established — terminal-setup failure, local EOF, remote close, detach, an
I/O error, or a poll failure — `client_fini` is invoked; it closes the
service socket unconditionally and restores the saved terminal attributes
exactly when the input was a tty at startup. -/
theorem c9_fini_on_every_exit (rc0 : Int) (is_tty : Bool) (events : List PollEvent)
    (res : MainOutcome) (h : main_fn rc0 is_tty events = some res) :
    res.fini = some (client_fini is_tty) ∧
    (client_fini is_tty).closed_sd = true ∧
    (client_fini is_tty).restored_termios = is_tty := by
  unfold main_fn at h
  by_cases h0 : rc0 ≠ 0
  · rw [if_pos h0] at h
    simp only [Option.some.injEq] at h
    subst h
    exact ⟨rfl, rfl, rfl⟩
  · rw [if_neg h0] at h
    cases hml : main_loop ⟨0, false⟩ events with
    | none => rw [hml] at h; cases h
    | some le =>
      rw [hml] at h
      simp only [Option.some.injEq] at h
      subst h
      exact ⟨rfl, rfl, rfl⟩

/-- C9 witness: a poll-failure exit still runs `client_fini`, closing the
socket and restoring the terminal attributes of a tty session. -/
theorem c9_fini_on_every_exit_witness :
    (⟨1, some (client_fini true),
      some ⟨-1, .PROCESS_OK, true, ["Poll failure"], [], []⟩⟩ : MainOutcome).fini =
        some (client_fini true) ∧
    (client_fini true).closed_sd = true ∧
    (client_fini true).restored_termios = true :=
  c9_fini_on_every_exit 0 true [.pollFail]
    ⟨1, some (client_fini true), some ⟨-1, .PROCESS_OK, true, ["Poll failure"], [], []⟩⟩ rfl

end ConsoleClient
